import Mathlib

/-!
Verification development for the bookstore order/cart slice.

Backend: `createOrder` in backend/controllers/orderController.js with the
order schema defaults of backend/models/Order.js.
Frontend: the zustand cart store of frontend/src/hooks/useCart.ts, the
checkout submission handler and the field validators of the checkout page.

Prices and money amounts are modelled as rationals (the code computes with
JS numbers; the algorithms are what is verified, not IEEE rounding).
Quantities are integers.  Persistence (mongoose `save`) is modelled as an
append to the order list; a request is a pure value.
-/

namespace Shop

/-! ### Backend data model -/

/-- A catalog book as read by `Book.findById(...).lean()`: the fields the
order controller uses (title, publisher, price, image). -/
structure CatBook where
  title : String
  publisher : String
  price : ℚ
  image : String
deriving DecidableEq

/-- One entry of the request's `items` array: `{bookId, quantity}`.  A JS
request may omit `bookId`; `none` stands for a missing field and the empty
string is the other falsy string value the controller rejects. -/
structure ReqItem where
  bookId : Option String
  quantity : ℤ
deriving DecidableEq

/-- The `customer` object of the request body; `organization` is optional
in the checkout form. -/
structure ReqCustomer where
  name : String
  organization : Option String
  phone : String
  email : String
  address : String
deriving DecidableEq

/-- The order-creation request body `{customer, items, totalPrice, notes}`. -/
structure OrderRequest where
  customer : ReqCustomer
  items : List ReqItem
  totalPrice : ℚ
  notes : Option String
deriving DecidableEq

/-- A processed line item `{book, quantity, price, title, publisher, image}`
pushed onto `processedItems`: a snapshot of the catalog book at order time. -/
structure OrderLine where
  book : String
  quantity : ℤ
  price : ℚ
  title : String
  publisher : String
  image : String
deriving DecidableEq

/-- The customer subdocument stored on the order (organization defaulted
to the empty string by `customer.organization || ''`). -/
structure OrderCustomer where
  name : String
  organization : String
  phone : String
  email : String
  address : String
deriving DecidableEq

/-- A persisted Order document: `orderId` from the pre-save hook, `status`
and `paymentStatus` from the schema defaults. -/
structure Order where
  orderId : String
  customer : OrderCustomer
  items : List OrderLine
  totalPrice : ℚ
  status : String
  paymentStatus : String
  shippingAddress : String
  notes : String
deriving DecidableEq

/-- The possible responses of `createOrder`, by rejection site:
400 invalid items / invalid total / invalid item data, 404 book not found
(carrying the offending id), 400 total mismatch (carrying both the
calculated and the provided totals, as the JSON response does), or 201
with the created order. -/
inductive OrderResponse where
  | invalidItems
  | invalidTotal
  | invalidItemData
  | bookNotFound (bookId : String)
  | totalMismatch (calculatedTotal providedTotal : ℚ)
  | created (order : Order)
deriving DecidableEq

/-- Whether a response is the 201 success. -/
def OrderResponse.isCreated : OrderResponse → Bool
  | .created _ => true
  | _ => false

/-- Full outcome of one `createOrder` call: the HTTP response, the orders
collection afterwards, and whether each notification email went out. -/
structure CreateOrderOutcome where
  response : OrderResponse
  orders : List Order
  ownerEmailSent : Bool
  customerEmailSent : Bool
deriving DecidableEq

/-- The `for (const item of items)` loop: reject the item if `bookId` is
falsy (missing or empty) or `quantity <= 0` (`!quantity` adds nothing for
integers), 404 if the catalog lookup fails, otherwise snapshot the catalog
book into a processed line item.  The first offending item aborts the whole
loop, exactly as the early `return res.status(...)` does. -/
def processItems (catalog : String → Option CatBook) : List ReqItem →
    Except OrderResponse (List OrderLine)
  | [] => .ok []
  | item :: rest =>
    match item.bookId with
    | none => .error .invalidItemData
    | some bid =>
      if bid = "" then .error .invalidItemData
      else if item.quantity ≤ 0 then .error .invalidItemData
      else
        match catalog bid with
        | none => .error (.bookNotFound bid)
        | some book =>
          match processItems catalog rest with
          | .error e => .error e
          | .ok lines =>
            .ok (⟨bid, item.quantity, book.price, book.title, book.publisher, book.image⟩ :: lines)

/-- `calculatedTotal`: the running sum of `book.price * quantity` over the
processed line items. -/
def linesTotal (lines : List OrderLine) : ℚ :=
  (lines.map (fun l => l.price * (l.quantity : ℚ))).sum

/-- The pre-save hook's order id:
`` ORD-${Date.now()}-${random suffix} ``, parametrised by the timestamp and
the random suffix. -/
def genOrderId (now : ℕ) (rand : String) : String :=
  "ORD-" ++ toString now ++ "-" ++ rand

/-- The `orderData` object handed to `new Order(...)` once every check has
passed, with the schema defaults and the pre-save id hook applied:
customer copied from the request (`organization || ''`), the processed
line-item snapshots, `totalPrice` set to the calculated total (not the
claimed one), `status`/`paymentStatus` defaulted to pending. -/
def builtOrder (req : OrderRequest) (lines : List OrderLine)
    (now : ℕ) (rand : String) : Order :=
  { orderId := genOrderId now rand
    customer := ⟨req.customer.name, req.customer.organization.getD "",
      req.customer.phone, req.customer.email, req.customer.address⟩
    items := lines
    totalPrice := linesTotal lines
    status := "pending"
    paymentStatus := "pending"
    shippingAddress := req.customer.address
    notes := req.notes.getD "" }

/-- The `createOrder` controller.  `catalog` stands for `Book.findById`,
`db` for the orders collection, `now`/`rand` for the pre-save id hook's
timestamp and random suffix.  `ownerEmailFails`/`customerEmailFails` say
whether the respective `sendMail` call would throw; both sends share one
try/catch, so a throwing owner notification skips the customer send, and a
caught email error never changes the 201 response. -/
def createOrder (catalog : String → Option CatBook) (req : OrderRequest)
    (db : List Order) (now : ℕ) (rand : String)
    (ownerEmailFails customerEmailFails : Bool) : CreateOrderOutcome :=
  if req.items.isEmpty then ⟨.invalidItems, db, false, false⟩
  else if req.totalPrice ≤ 0 then ⟨.invalidTotal, db, false, false⟩
  else
    match processItems catalog req.items with
    | .error e => ⟨e, db, false, false⟩
    | .ok lines =>
      if 1 / 100 < |linesTotal lines - req.totalPrice| then
        ⟨.totalMismatch (linesTotal lines) req.totalPrice, db, false, false⟩
      else
        ⟨.created (builtOrder req lines now rand), db ++ [builtOrder req lines now rand],
          !ownerEmailFails, !ownerEmailFails && !customerEmailFails⟩

/-- The server-side total of a request: sum over items of the catalog
price times the quantity (0 for an unresolvable id; the claims that use
this only do so when every id resolves). -/
def serverTotal (catalog : String → Option CatBook) (items : List ReqItem) : ℚ :=
  (items.map (fun i =>
    match i.bookId.bind catalog with
    | some b => b.price * (i.quantity : ℚ)
    | none => 0)).sum

/-- An item that survives the controller's per-item validation: a truthy
`bookId` and a positive quantity. -/
def ReqItem.wellformed (i : ReqItem) : Prop :=
  ∃ bid, i.bookId = some bid ∧ bid ≠ "" ∧ 0 < i.quantity

/-- Every id the item carries resolves in the catalog. -/
def resolvesIn (catalog : String → Option CatBook) (i : ReqItem) : Prop :=
  ∀ bid, i.bookId = some bid → ∃ b, catalog bid = some b

/-- The item carries an id the catalog cannot resolve. -/
def unresolvable (catalog : String → Option CatBook) (i : ReqItem) : Prop :=
  ∃ bid, i.bookId = some bid ∧ catalog bid = none

/-! ### Frontend cart store (hooks/useCart.ts) -/

/-- A frontend `Book`: `_id` and `id` are both optional strings (the code
treats an empty string as absent, JS truthiness); only the fields the cart
logic reads are kept. -/
structure FBook where
  bookUid : Option String
  bookId : Option String
  title : String
  price : ℚ
  image : String
deriving DecidableEq

/-- The JS value of `book._id || book.id` (`bookUid` models `_id`,
`bookId` models `id`): the first operand when it is truthy, otherwise the
second, whatever it is; `none` stands for `undefined`. -/
def jsId (b : FBook) : Option String :=
  match b.bookUid with
  | some s => if s = "" then b.bookId else some s
  | none => b.bookId

/-- `book._id || book.id` seen as a boolean guard (`if (!bookId) ...`):
only a nonempty string passes. -/
def truthyId (b : FBook) : Option String :=
  match jsId b with
  | some s => if s = "" then none else some s
  | none => none

/-- A cart entry `{book, quantity}`.  The `book` field is optional because
a corrupted persisted blob can lack it (`item.book &&` guards exist in the
code for exactly that reason). -/
structure CartItem where
  book : Option FBook
  quantity : ℤ
deriving DecidableEq

/-- The cart store's state: the items plus the two derived cached totals. -/
structure CartState where
  items : List CartItem
  totalItems : ℤ
  totalPrice : ℚ
deriving DecidableEq

/-- The comparison `(item.book._id || item.book.id) === bookId` used by
every cart operation to locate an entry.  A missing `book` never matches
(in JS the field access would throw, but no state reachable from the empty
cart through the store operations contains such an entry, and the lookup
helpers guard with `if (!item.book) return false`). -/
def itemMatches (bid : String) (i : CartItem) : Bool :=
  match i.book with
  | none => false
  | some b => jsId b = some bid

/-- `calculateTotals`, first component: `sum(item.quantity)`. -/
def calcTotalItems (items : List CartItem) : ℤ :=
  (items.map (fun i => i.quantity)).sum

/-- `calculateTotals`, second component: `sum(item.book.price * item.quantity)`
(a missing book contributes 0; see `itemMatches`). -/
def calcTotalPrice (items : List CartItem) : ℚ :=
  (items.map (fun i =>
    match i.book with
    | some b => b.price * (i.quantity : ℚ)
    | none => 0)).sum

/-- Rebuild a state from an item list with freshly recomputed totals, the
`set({items: newItems, totalItems, totalPrice})` pattern. -/
def withTotals (items : List CartItem) : CartState :=
  ⟨items, calcTotalItems items, calcTotalPrice items⟩

/-- `addToCart(book, quantity)`: no-op when the book has no truthy id;
merge into every matching entry (`items.map`) when one exists, else append
`{book, quantity}`; recompute both totals. -/
def addToCart (book : FBook) (quantity : ℤ) (s : CartState) : CartState :=
  match truthyId book with
  | none => s
  | some bid =>
    if s.items.any (itemMatches bid) then
      withTotals (s.items.map (fun i =>
        if itemMatches bid i then { i with quantity := i.quantity + quantity } else i))
    else
      withTotals (s.items ++ [⟨some book, quantity⟩])

/-- `removeFromCart(bookId)`: no-op when no entry matches, else filter the
matching entries out and recompute totals. -/
def removeFromCart (bid : String) (s : CartState) : CartState :=
  if s.items.any (itemMatches bid) then
    withTotals (s.items.filter (fun i => !itemMatches bid i))
  else s

/-- `updateQuantity(bookId, quantity)`: delegate to `removeFromCart` when
`quantity <= 0`, else set the matching entries' quantity absolutely and
recompute totals. -/
def updateQuantity (bid : String) (quantity : ℤ) (s : CartState) : CartState :=
  if quantity ≤ 0 then removeFromCart bid s
  else
    withTotals (s.items.map (fun i =>
      if itemMatches bid i then { i with quantity := quantity } else i))

/-- `clearCart()`: empty items, both totals set to 0 directly. -/
def clearCart (_s : CartState) : CartState := ⟨[], 0, 0⟩

/-- The store's initial state. -/
def initialCart : CartState := ⟨[], 0, 0⟩

/-- The validity test `item.book && (item.book._id || item.book.id)` used
by both `cleanupCart` and the persist `partialize` filter. -/
def cleanupValid (i : CartItem) : Bool :=
  match i.book with
  | none => false
  | some b => (truthyId b).isSome

/-- `cleanupCart()`: keep the valid entries; only when that removed
something, install the filtered items with recomputed totals — otherwise
the state (totals included) is left exactly as it was. -/
def cleanupCart (s : CartState) : CartState :=
  let validItems := s.items.filter cleanupValid
  if validItems.length ≠ s.items.length then withTotals validItems
  else s

/-- The persist `partialize` projection: only the valid `{book, quantity}`
entries are serialized, never the derived totals. -/
def persistedItems (s : CartState) : List CartItem :=
  s.items.filter cleanupValid

/-- Rehydration: zustand's persist middleware shallow-merges the stored
partial state (which holds only `items`) over the initial state, so the
totals start at their initial 0; then `onRehydrateStorage` runs
`cleanupCart` on the merged state. -/
def rehydrate (blob : List CartItem) : CartState :=
  cleanupCart { initialCart with items := blob }

/-- One user-level cart operation, for reasoning about operation
sequences. -/
inductive CartOp where
  | add (book : FBook) (quantity : ℤ)
  | remove (bid : String)
  | update (bid : String) (quantity : ℤ)
  | clear

/-- Apply one cart operation to a state. -/
def applyOp (s : CartState) : CartOp → CartState
  | .add book quantity => addToCart book quantity s
  | .remove bid => removeFromCart bid s
  | .update bid quantity => updateQuantity bid quantity s
  | .clear => clearCart s

/-- Run a sequence of cart operations from the initial empty cart. -/
def runOps (ops : List CartOp) : CartState :=
  ops.foldl applyOp initialCart

/-- The cart invariant: the cached totals equal the sums over the current
items. -/
def cartInv (s : CartState) : Prop :=
  s.totalItems = calcTotalItems s.items ∧ s.totalPrice = calcTotalPrice s.items

/-! ### Checkout submission (checkout page handleSubmit) -/

/-- What `orderApi.createOrder` resolves to, as `handleSubmit` sees it:
an `ApiResponse` envelope.  `apiRequest` catches transport errors and
malformed responses itself and returns `{success: false}`, so every
outcome, including a network failure, arrives in this shape. -/
structure ApiResp where
  success : Bool
  data : Option Order
deriving DecidableEq

/-- The externally visible result of one submission attempt. -/
inductive SubmitResult where
  | notSubmitted
  | confirmed (orderId : String)
  | failed
deriving DecidableEq

/-- `handleSubmit`: abort before any network call when the form is
invalid; building the payload throws (caught below) when a cart item lacks
a book or a truthy id; on `response.success && response.data` show the
success toast, clear the cart and navigate; every other path lands in the
catch block, which leaves the cart untouched and surfaces a retryable
error. -/
def handleSubmit (formValid : Bool) (s : CartState) (resp : ApiResp) :
    CartState × SubmitResult :=
  if !formValid then (s, .notSubmitted)
  else if !(s.items.all cleanupValid) then (s, .failed)
  else
    match resp.success, resp.data with
    | true, some o => (clearCart s, .confirmed o.orderId)
    | _, _ => (s, .failed)

/-! ### Phone validator (PHONE_REGEX, shared with the customer schema)

The pattern is
`^\+?(\d\x7b1,3\x7d)?[-.\s]?(\(?\d\x7b3\x7d\)?[-.\s]?)?(\d[-.\s]?)\x7b6,15\x7d\d$`.
It is embedded as an executable backtracking matcher over `List Char`:
each optional prefix piece yields the list of possible remainders, and the
tail repetition is a recursive matcher; a string matches iff some
decomposition succeeds, which is exactly regex acceptance. -/

/-- The separator class `[-.\s]` (whitespace taken as the ASCII class). -/
def isSep (c : Char) : Bool :=
  c = '-' || c = '.' || c.isWhitespace

/-- Matcher for the suffix `(\d[-.\s]?)\x7b6,15\x7d\d$` with `k` group
iterations already consumed: the final character must be a digit reached
after between 6 and 15 iterations, each of one digit and an optional
separator. -/
def tailOk : List Char → ℕ → Bool
  | [], _ => false
  | [c], k => c.isDigit && decide (6 ≤ k) && decide (k ≤ 15)
  | c :: c2 :: rest, k =>
    c.isDigit && decide (k < 15) &&
      (tailOk (c2 :: rest) (k + 1) || (isSep c2 && tailOk rest (k + 1)))

/-- Remainders after the optional leading `\+?`. -/
def plusOpts (s : List Char) : List (List Char) :=
  match s with
  | c :: rest => if c = '+' then [s, rest] else [s]
  | [] => [s]

/-- Remainders after the optional country code `(\d\x7b1,3\x7d)?`. -/
def digitsOpt (s : List Char) : List (List Char) :=
  match s with
  | a :: r1 =>
    if a.isDigit then
      match r1 with
      | b :: r2 =>
        if b.isDigit then
          match r2 with
          | c :: r3 => if c.isDigit then [s, r1, r2, r3] else [s, r1, r2]
          | [] => [s, r1, r2]
        else [s, r1]
      | [] => [s, r1]
    else [s]
  | [] => [s]

/-- Remainders after one optional separator `[-.\s]?`. -/
def optSep (s : List Char) : List (List Char) :=
  match s with
  | c :: rest => if isSep c then [s, rest] else [s]
  | [] => [s]

/-- Exactly three digits `\d\x7b3\x7d`. -/
def area3 (s : List Char) : Option (List Char) :=
  match s with
  | a :: b :: c :: r => if a.isDigit && b.isDigit && c.isDigit then some r else none
  | _ => none

/-- Remainders after `\d\x7b3\x7d\)?[-.\s]?` (the area group after its
optional opening parenthesis). -/
def areaCore (t : List Char) : List (List Char) :=
  match area3 t with
  | some r =>
    let afterParen : List (List Char) :=
      match r with
      | c :: rr => if c = ')' then [r, rr] else [r]
      | [] => [r]
    (afterParen.map optSep).flatten
  | none => []

/-- Remainders after the optional area group `(\(?\d\x7b3\x7d\)?[-.\s]?)?`. -/
def areaOpts (s : List Char) : List (List Char) :=
  [s] ++ areaCore s ++
    (match s with
     | c :: rest => if c = '(' then areaCore rest else []
     | [] => [])

/-- The whole anchored PHONE_REGEX as an acceptance test. -/
def phoneMatch (s : List Char) : Bool :=
  (((((plusOpts s).map digitsOpt).flatten.map optSep).flatten.map areaOpts).flatten).any
    (fun t => tailOk t 0)

/-- Number of digit characters in a string. -/
def digitCount (s : List Char) : ℕ :=
  s.countP (fun c => c.isDigit)

/-! ### Shared concrete fixtures (used by witnesses and counterexamples) -/

/-- A concrete catalog book priced 10. -/
def cxBook : CatBook := ⟨"Maths 101", "Acme", 10, "http://img"⟩

/-- A concrete one-book catalog mapping B1 to `cxBook`. -/
def cxCatalog : String → Option CatBook :=
  fun bid => if bid = "B1" then some cxBook else none

/-- A concrete customer. -/
def cxCustomer : ReqCustomer :=
  ⟨"Nia", none, "123-456-7890", "nia@example.com", "12 Long Street, Town"⟩

/-- A concrete frontend book with a resolvable id. -/
def wBook : FBook := ⟨some "bx", none, "Witness Book", 7, "http://img"⟩

/-- A concrete nonempty cart. -/
def wCart : CartState := withTotals [⟨some wBook, 2⟩]

/-- The book of an entirely valid persisted cart entry. -/
def staleBook : FBook := ⟨some "b1", none, "Stale Totals", 5, "http://img"⟩

/-- A persisted cart blob holding one valid entry of quantity 1: what a
normal session persists. -/
def staleBlob : List CartItem := [⟨some staleBook, 1⟩]

/-- The round-trip request of C5: one item `{id: B1, qty: 2}` with claimed
total 25.98. -/
def b1Request (cust : ReqCustomer) (notes : Option String) : OrderRequest :=
  ⟨cust, [⟨some "B1", 2⟩], 2598 / 100, notes⟩

/-- The concrete 12.99-priced catalog book for the C5 witness. -/
def w5Book : CatBook := ⟨"Physics 202", "Beta", 1299 / 100, "http://img2"⟩

/-- A concrete catalog mapping B1 to the 12.99 book. -/
def w5Catalog : String → Option CatBook :=
  fun bid => if bid = "B1" then some w5Book else none

/-- The valid request used by the C8 counterexample. -/
def c8Request : OrderRequest := ⟨cxCustomer, [⟨some "B1", 1⟩], 10, none⟩

/-! ### Cart store lemmas and claims -/

theorem cartInv_withTotals (items : List CartItem) : cartInv (withTotals items) :=
  ⟨rfl, rfl⟩

theorem cartInv_initial : cartInv initialCart := by
  constructor <;> rfl

theorem cartInv_addToCart (book : FBook) (q : ℤ) (s : CartState) (h : cartInv s) :
    cartInv (addToCart book q s) := by
  unfold addToCart
  cases truthyId book with
  | none => exact h
  | some bid =>
    by_cases hc : s.items.any (itemMatches bid) = true
    · simp only [hc, if_true]
      exact cartInv_withTotals _
    · simp only [hc, if_false, Bool.false_eq_true]
      exact cartInv_withTotals _

theorem cartInv_removeFromCart (bid : String) (s : CartState) (h : cartInv s) :
    cartInv (removeFromCart bid s) := by
  unfold removeFromCart
  by_cases hc : s.items.any (itemMatches bid) = true
  · simp only [hc, if_true]
    exact cartInv_withTotals _
  · simp only [hc, if_false, Bool.false_eq_true]
    exact h

theorem cartInv_updateQuantity (bid : String) (q : ℤ) (s : CartState) (h : cartInv s) :
    cartInv (updateQuantity bid q s) := by
  unfold updateQuantity
  by_cases hq : q ≤ 0
  · simp only [hq, if_true]
    exact cartInv_removeFromCart bid s h
  · simp only [hq, if_false]
    exact cartInv_withTotals _

theorem cartInv_clearCart (s : CartState) : cartInv (clearCart s) :=
  cartInv_initial

theorem cartInv_applyOp (s : CartState) (op : CartOp) (h : cartInv s) :
    cartInv (applyOp s op) := by
  cases op with
  | add book q => exact cartInv_addToCart book q s h
  | remove bid => exact cartInv_removeFromCart bid s h
  | update bid q => exact cartInv_updateQuantity bid q s h
  | clear => exact cartInv_clearCart s

theorem cartInv_foldl (ops : List CartOp) :
    ∀ s : CartState, cartInv s → cartInv (ops.foldl applyOp s) := by
  induction ops with
  | nil => intro s h; exact h
  | cons op rest ih =>
    intro s h
    exact ih (applyOp s op) (cartInv_applyOp s op h)

/-- Claim C3: for every sequence of addToCart / removeFromCart / updateQuantity /
clearCart operations run from the initial empty cart, after each operation
the cached `totalItems` equals the sum of item quantities and the cached
`totalPrice` equals the sum of quantity times unit price over the current
items, exactly.  (Quantifying over all operation lists covers every prefix
of every sequence.) -/
theorem cart_totals_invariant (ops : List CartOp) : cartInv (runOps ops) :=
  cartInv_foldl ops initialCart cartInv_initial

theorem truthyId_jsId {b : FBook} {bid : String} (h : truthyId b = some bid) :
    jsId b = some bid := by
  unfold truthyId at h
  cases hj : jsId b with
  | none => rw [hj] at h; exact absurd h (by simp)
  | some s =>
    rw [hj] at h
    by_cases hs : s = ""
    · simp [hs] at h
    · simp [hs] at h; rw [h]

theorem addToCart_eq_append (book : FBook) (bid : String) (q : ℤ) (s : CartState)
    (hid : truthyId book = some bid)
    (h : s.items.any (itemMatches bid) = false) :
    addToCart book q s = withTotals (s.items ++ [CartItem.mk (some book) q]) := by
  unfold addToCart
  rw [hid]
  simp [h]

theorem addToCart_eq_map (book : FBook) (bid : String) (q : ℤ) (s : CartState)
    (hid : truthyId book = some bid)
    (h : s.items.any (itemMatches bid) = true) :
    addToCart book q s = withTotals (s.items.map (fun i =>
      if itemMatches bid i then { i with quantity := i.quantity + q } else i)) := by
  unfold addToCart
  rw [hid]
  simp [h]

/-- Claim C6: adding the same resolvable book twice, with quantities `q1` then
`q2`, to a cart that does not yet contain it yields exactly one entry for
that book's identifier, carrying quantity `q1 + q2`, and grows the item
list by exactly one entry. -/
theorem addToCart_merges_duplicates (s : CartState) (b : FBook) (bid : String)
    (q1 q2 : ℤ) (hid : truthyId b = some bid)
    (habs : ∀ i ∈ s.items, itemMatches bid i = false) :
    (addToCart b q2 (addToCart b q1 s)).items.filter (itemMatches bid)
        = [CartItem.mk (some b) (q1 + q2)] ∧
    (addToCart b q2 (addToCart b q1 s)).items.length = s.items.length + 1 := by
  have hjs : jsId b = some bid := truthyId_jsId hid
  have hmatch : itemMatches bid (CartItem.mk (some b) q1) = true := by
    simp [itemMatches, hjs]
  have hany : s.items.any (itemMatches bid) = false := by
    rw [List.any_eq_false]
    intro i hi
    simp [habs i hi]
  have h1 := addToCart_eq_append b bid q1 s hid hany
  have hany2 : (withTotals (s.items ++ [CartItem.mk (some b) q1])).items.any
      (itemMatches bid) = true := by
    show (s.items ++ [CartItem.mk (some b) q1]).any (itemMatches bid) = true
    rw [List.any_append]
    simp [hmatch]
  have h2 : addToCart b q2 (addToCart b q1 s)
      = withTotals ((s.items ++ [CartItem.mk (some b) q1]).map (fun i =>
          if itemMatches bid i then { i with quantity := i.quantity + q2 } else i)) := by
    rw [h1, addToCart_eq_map b bid q2 _ hid hany2]
    rfl
  have hmap : (s.items ++ [CartItem.mk (some b) q1]).map (fun i =>
      if itemMatches bid i then { i with quantity := i.quantity + q2 } else i)
      = s.items ++ [CartItem.mk (some b) (q1 + q2)] := by
    rw [List.map_append]
    congr 1
    · calc s.items.map (fun i =>
          if itemMatches bid i then { i with quantity := i.quantity + q2 } else i)
          = s.items.map id := by
            apply List.map_congr_left
            intro i hi
            simp [habs i hi]
      _ = s.items := List.map_id s.items
    · simp [hmatch]
  constructor
  · rw [h2, hmap]
    show (s.items ++ [CartItem.mk (some b) (q1 + q2)]).filter (itemMatches bid) = _
    rw [List.filter_append]
    have hnil : s.items.filter (itemMatches bid) = [] := by
      rw [List.filter_eq_nil_iff]
      intro i hi
      simp [habs i hi]
    rw [hnil]
    simp [itemMatches, hjs]
  · rw [h2, hmap]
    show (s.items ++ [CartItem.mk (some b) (q1 + q2)]).length = s.items.length + 1
    simp

theorem addToCart_merges_duplicates_witness :
    (addToCart wBook 3 (addToCart wBook 2 initialCart)).items.filter (itemMatches "bx")
        = [⟨some wBook, 5⟩] ∧
    (addToCart wBook 3 (addToCart wBook 2 initialCart)).items.length = 1 := by
  have h := addToCart_merges_duplicates initialCart wBook "bx" 2 3 (by decide)
    (by intro i hi; simp [initialCart] at hi)
  exact h

/-- Claim C4: at the failing input — a persisted blob holding one entirely valid
entry (quantity 1, unit price 5) — rehydration keeps the entry but leaves
both derived totals at their initial 0, because `cleanupCart` recomputes
them only when it removed an entry; the recomputed sums would be 1 and 5.
This exhibits the divergence from the claim that the totals are always
recomputed on load. -/
theorem rehydrate_keeps_stale_zero_totals :
    (rehydrate staleBlob).items = staleBlob ∧
    (rehydrate staleBlob).totalItems = 0 ∧
    (rehydrate staleBlob).totalPrice = 0 ∧
    calcTotalItems staleBlob = 1 ∧
    calcTotalPrice staleBlob = 5 := by
  refine ⟨?_, ?_, ?_, ?_, ?_⟩ <;>
    simp [rehydrate, cleanupCart, cleanupValid, truthyId, jsId, staleBlob, staleBook,
      initialCart, calcTotalItems, calcTotalPrice]

/-- Claim C7: the checkout submission clears the cart only when the response is a
confirmed success carrying data; whenever the call fails (integrity
rejection, transport error — both arrive as an unsuccessful envelope) the
cart state is left exactly unchanged, and any state change at all implies
the response was a success with data. -/
theorem checkout_clears_only_on_success (fv : Bool) (s : CartState) (resp : ApiResp) :
    (∀ oid, (handleSubmit fv s resp).2 = .confirmed oid →
      resp.success = true ∧ resp.data ≠ none ∧ (handleSubmit fv s resp).1 = clearCart s) ∧
    ((handleSubmit fv s resp).1 ≠ s → resp.success = true ∧ resp.data ≠ none) ∧
    ((resp.success = false ∨ resp.data = none) → (handleSubmit fv s resp).1 = s) := by
  obtain ⟨su, da⟩ := resp
  cases fv <;> cases su <;> cases da <;> cases hall : s.items.all cleanupValid <;>
    simp [handleSubmit, hall]

theorem checkout_clears_only_on_success_witness :
    (handleSubmit true wCart ⟨false, none⟩).1 = wCart :=
  (checkout_clears_only_on_success true wCart ⟨false, none⟩).2.2 (Or.inl rfl)

/-! ### Order-creation lemmas and claims -/

theorem createOrder_mismatch_eq (catalog : String → Option CatBook) (req : OrderRequest)
    (db : List Order) (now : ℕ) (rand : String) (oF cF : Bool) (lines : List OrderLine)
    (hie : req.items.isEmpty = false) (hnp : ¬ req.totalPrice ≤ 0)
    (hok : processItems catalog req.items = .ok lines)
    (hgt : 1 / 100 < |linesTotal lines - req.totalPrice|) :
    createOrder catalog req db now rand oF cF
      = ⟨.totalMismatch (linesTotal lines) req.totalPrice, db, false, false⟩ := by
  unfold createOrder
  rw [if_neg (by simp [hie]), if_neg hnp, hok]
  show (if 1 / 100 < |linesTotal lines - req.totalPrice| then
      (⟨.totalMismatch (linesTotal lines) req.totalPrice, db, false, false⟩ : CreateOrderOutcome)
    else ⟨.created (builtOrder req lines now rand), db ++ [builtOrder req lines now rand],
      !oF, !oF && !cF⟩) = _
  rw [if_pos hgt]

theorem createOrder_created_eq (catalog : String → Option CatBook) (req : OrderRequest)
    (db : List Order) (now : ℕ) (rand : String) (oF cF : Bool) (lines : List OrderLine)
    (hie : req.items.isEmpty = false) (hnp : ¬ req.totalPrice ≤ 0)
    (hok : processItems catalog req.items = .ok lines)
    (hle : ¬ 1 / 100 < |linesTotal lines - req.totalPrice|) :
    createOrder catalog req db now rand oF cF
      = ⟨.created (builtOrder req lines now rand), db ++ [builtOrder req lines now rand],
          !oF, !oF && !cF⟩ := by
  unfold createOrder
  rw [if_neg (by simp [hie]), if_neg hnp, hok]
  show (if 1 / 100 < |linesTotal lines - req.totalPrice| then
      (⟨.totalMismatch (linesTotal lines) req.totalPrice, db, false, false⟩ : CreateOrderOutcome)
    else ⟨.created (builtOrder req lines now rand), db ++ [builtOrder req lines now rand],
      !oF, !oF && !cF⟩) = _
  rw [if_neg hle]

theorem isEmpty_false_of_ne_nil {α : Type} {l : List α} (h : l ≠ []) :
    l.isEmpty = false := by
  cases hl : l with
  | nil => exact absurd hl h
  | cons a t => rfl

theorem processItems_ok (catalog : String → Option CatBook) (items : List ReqItem)
    (hw : ∀ i ∈ items, i.wellformed) (hr : ∀ i ∈ items, resolvesIn catalog i) :
    ∃ lines, processItems catalog items = .ok lines ∧
      linesTotal lines = serverTotal catalog items := by
  induction items with
  | nil => exact ⟨[], rfl, by simp [linesTotal, serverTotal]⟩
  | cons i rest ih =>
    obtain ⟨bid, hbid, hbne, hq⟩ := hw i (List.mem_cons_self i rest)
    obtain ⟨b, hb⟩ := hr i (List.mem_cons_self i rest) bid hbid
    obtain ⟨lines, hok, htot⟩ :=
      ih (fun j hj => hw j (List.mem_cons_of_mem i hj))
        (fun j hj => hr j (List.mem_cons_of_mem i hj))
    refine ⟨⟨bid, i.quantity, b.price, b.title, b.publisher, b.image⟩ :: lines, ?_, ?_⟩
    · simp only [processItems, hbid, hbne, if_false, hb, hok]
      rw [if_neg (by omega)]
    · have hbind : i.bookId.bind catalog = some b := by
        rw [hbid]
        exact hb
      have h1 : linesTotal (⟨bid, i.quantity, b.price, b.title, b.publisher, b.image⟩ :: lines)
          = b.price * (i.quantity : ℚ) + linesTotal lines := by
        unfold linesTotal
        rw [List.map_cons, List.sum_cons]
      have h2 : serverTotal catalog (i :: rest)
          = b.price * (i.quantity : ℚ) + serverTotal catalog rest := by
        unfold serverTotal
        rw [List.map_cons, List.sum_cons, hbind]
      rw [h1, h2, htot]

theorem processItems_error_shape (catalog : String → Option CatBook)
    (items : List ReqItem) (e : OrderResponse)
    (h : processItems catalog items = .error e) : e.isCreated = false := by
  induction items generalizing e with
  | nil => simp [processItems] at h
  | cons i rest ih =>
    cases hbid : i.bookId with
    | none =>
      simp [processItems, hbid] at h
      subst h
      rfl
    | some bid =>
      by_cases hbne : bid = ""
      · simp [processItems, hbid, hbne] at h
        subst h
        rfl
      by_cases hq : i.quantity ≤ 0
      · simp [processItems, hbid, hbne, hq] at h
        subst h
        rfl
      cases hb : catalog bid with
      | none =>
        simp [processItems, hbid, hbne, hq, hb] at h
        subst h
        rfl
      | some b =>
        cases hrest : processItems catalog rest with
        | error e2 =>
          simp [processItems, hbid, hbne, hq, hb, hrest] at h
          subst h
          exact ih e2 hrest
        | ok lines =>
          simp [processItems, hbid, hbne, hq, hb, hrest] at h

theorem processItems_error_of_bad (catalog : String → Option CatBook)
    (items : List ReqItem)
    (h : ∃ i ∈ items, ¬ i.wellformed ∨ unresolvable catalog i) :
    ∃ e, processItems catalog items = .error e ∧
      (e = .invalidItemData ∨ ∃ bid, e = .bookNotFound bid) := by
  induction items with
  | nil => simp at h
  | cons i rest ih =>
    cases hbid : i.bookId with
    | none => exact ⟨.invalidItemData, by simp [processItems, hbid], Or.inl rfl⟩
    | some bid =>
      by_cases hbne : bid = ""
      · exact ⟨.invalidItemData, by simp [processItems, hbid, hbne], Or.inl rfl⟩
      by_cases hq : i.quantity ≤ 0
      · exact ⟨.invalidItemData, by simp [processItems, hbid, hbne, hq], Or.inl rfl⟩
      cases hb : catalog bid with
      | none =>
        exact ⟨.bookNotFound bid, by simp [processItems, hbid, hbne, hq, hb],
          Or.inr ⟨bid, rfl⟩⟩
      | some b =>
        have hwf : i.wellformed := ⟨bid, hbid, hbne, by omega⟩
        have hres : ¬ unresolvable catalog i := by
          rintro ⟨bid2, hbid2, hcat2⟩
          rw [hbid] at hbid2
          injection hbid2 with hb2
          rw [← hb2] at hcat2
          rw [hb] at hcat2
          exact Option.noConfusion hcat2
        obtain ⟨j, hj, hbad⟩ := h
        rcases List.mem_cons.mp hj with hji | hjr
        · subst hji
          rcases hbad with hb1 | hb2
          · exact absurd hwf hb1
          · exact absurd hb2 hres
        · obtain ⟨e, he, hshape⟩ := ih ⟨j, hjr, hbad⟩
          exact ⟨e, by simp [processItems, hbid, hbne, hq, hb, he], hshape⟩

theorem processItems_notFound (catalog : String → Option CatBook)
    (items : List ReqItem)
    (hw : ∀ i ∈ items, i.wellformed)
    (hu : ∃ i ∈ items, unresolvable catalog i) :
    ∃ bid, processItems catalog items = .error (.bookNotFound bid) := by
  induction items with
  | nil => simp at hu
  | cons i rest ih =>
    obtain ⟨bid, hbid, hbne, hq⟩ := hw i (List.mem_cons_self i rest)
    cases hb : catalog bid with
    | none =>
      refine ⟨bid, ?_⟩
      simp [processItems, hbid, hbne, hb]
      omega
    | some b =>
      have hres : ¬ unresolvable catalog i := by
        rintro ⟨bid2, hbid2, hcat2⟩
        rw [hbid] at hbid2
        injection hbid2 with hb2
        rw [← hb2] at hcat2
        rw [hb] at hcat2
        exact Option.noConfusion hcat2
      obtain ⟨j, hj, hbad⟩ := hu
      rcases List.mem_cons.mp hj with hji | hjr
      · subst hji; exact absurd hbad hres
      · obtain ⟨bid2, he⟩ := ih (fun k hk => hw k (List.mem_cons_of_mem i hk)) ⟨j, hjr, hbad⟩
        refine ⟨bid2, ?_⟩
        simp only [processItems, hbid, hbne, if_false, hb, he]
        rw [if_neg (by omega)]

/-- Claim C2: the order-creation operation rejects, without persisting any order,
every request whose items list is empty, or whose claimed total is
non-positive, or in which some item lacks a truthy bookId or has a
non-positive quantity, or in which some bookId does not resolve in the
catalog; moreover, when the items themselves are all well-formed and the
only defect is an unresolvable bookId, the rejection is specifically the
404 book-not-found error, and no partial order over the resolvable items is
created. -/
theorem createOrder_rejects_invalid (catalog : String → Option CatBook)
    (req : OrderRequest) (db : List Order) (now : ℕ) (rand : String) (oF cF : Bool) :
    ((req.items = [] ∨ req.totalPrice ≤ 0 ∨
        (∃ i ∈ req.items, ¬ i.wellformed) ∨
        (∃ i ∈ req.items, unresolvable catalog i)) →
      (createOrder catalog req db now rand oF cF).response.isCreated = false ∧
      (createOrder catalog req db now rand oF cF).orders = db) ∧
    ((req.items ≠ [] ∧ 0 < req.totalPrice ∧ (∀ i ∈ req.items, i.wellformed) ∧
        (∃ i ∈ req.items, unresolvable catalog i)) →
      ∃ bid, (createOrder catalog req db now rand oF cF).response = .bookNotFound bid ∧
        (createOrder catalog req db now rand oF cF).orders = db) := by
  constructor
  · intro h
    by_cases hempty : req.items = []
    · simp [createOrder, hempty, OrderResponse.isCreated]
    by_cases htp : req.totalPrice ≤ 0
    · simp [createOrder, List.isEmpty_iff, hempty, htp, OrderResponse.isCreated]
    have hbad : ∃ i ∈ req.items, ¬ i.wellformed ∨ unresolvable catalog i := by
      rcases h with h | h | ⟨i, hi, hb⟩ | ⟨i, hi, hb⟩
      · exact absurd h hempty
      · exact absurd h htp
      · exact ⟨i, hi, Or.inl hb⟩
      · exact ⟨i, hi, Or.inr hb⟩
    obtain ⟨e, he, hshape⟩ := processItems_error_of_bad catalog req.items hbad
    have hcr : createOrder catalog req db now rand oF cF = ⟨e, db, false, false⟩ := by
      simp [createOrder, List.isEmpty_iff, hempty, htp, he]
    rw [hcr]
    rcases hshape with h1 | ⟨bid, h2⟩
    · subst h1; exact ⟨rfl, rfl⟩
    · subst h2; exact ⟨rfl, rfl⟩
  · rintro ⟨hne, htp, hw, hu⟩
    obtain ⟨bid, he⟩ := processItems_notFound catalog req.items hw hu
    refine ⟨bid, ?_, ?_⟩ <;>
      simp [createOrder, List.isEmpty_iff, hne, not_le.mpr htp, he]

/-- Witness for C2: the empty-items request against the concrete catalog is
rejected and the order collection is unchanged. -/
theorem createOrder_rejects_invalid_witness :
    (createOrder cxCatalog ⟨cxCustomer, [], 10, none⟩ [] 0 "R" false false).response.isCreated
        = false ∧
    (createOrder cxCatalog ⟨cxCustomer, [], 10, none⟩ [] 0 "R" false false).orders = [] :=
  (createOrder_rejects_invalid cxCatalog ⟨cxCustomer, [], 10, none⟩ [] 0 "R" false false).1
    (Or.inl rfl)

/-- Claim C1: for a request that reaches the integrity check (non-empty items,
positive claimed total, every item well-formed and resolving in the
catalog), if the server-calculated total differs from the client-claimed
total by more than 0.01 the order is rejected with both totals reported and
nothing is persisted, and otherwise the request passes the integrity check
(it is not rejected as a total mismatch). -/
theorem createOrder_total_integrity (catalog : String → Option CatBook)
    (req : OrderRequest) (db : List Order) (now : ℕ) (rand : String) (oF cF : Bool)
    (hne : req.items ≠ []) (htp : 0 < req.totalPrice)
    (hw : ∀ i ∈ req.items, i.wellformed)
    (hr : ∀ i ∈ req.items, resolvesIn catalog i) :
    (1 / 100 < |serverTotal catalog req.items - req.totalPrice| →
      (createOrder catalog req db now rand oF cF).response
          = .totalMismatch (serverTotal catalog req.items) req.totalPrice ∧
      (createOrder catalog req db now rand oF cF).orders = db) ∧
    (|serverTotal catalog req.items - req.totalPrice| ≤ 1 / 100 →
      ∀ c p, (createOrder catalog req db now rand oF cF).response ≠ .totalMismatch c p) := by
  obtain ⟨lines, hok, htot⟩ := processItems_ok catalog req.items hw hr
  have hie : req.items.isEmpty = false := isEmpty_false_of_ne_nil hne
  constructor
  · intro hgt
    have hgt2 : 1 / 100 < |linesTotal lines - req.totalPrice| := by
      rw [htot]; exact hgt
    have hcr := createOrder_mismatch_eq catalog req db now rand oF cF lines hie
      (not_le.mpr htp) hok hgt2
    rw [hcr, htot]
    exact ⟨rfl, rfl⟩
  · intro hle c p
    have hnot : ¬ (1 / 100 < |linesTotal lines - req.totalPrice|) := by
      rw [htot]; exact not_lt.mpr hle
    have hcr := createOrder_created_eq catalog req db now rand oF cF lines hie
      (not_le.mpr htp) hok hnot
    rw [hcr]
    simp

/-- Witness for C1: a request claiming 15 against a server total of 10 is
rejected as a mismatch with both totals reported and nothing persisted. -/
theorem createOrder_total_integrity_witness :
    (createOrder cxCatalog ⟨cxCustomer, [⟨some "B1", 1⟩], 15, none⟩ [] 0 "R" false false).response
        = .totalMismatch (serverTotal cxCatalog [⟨some "B1", 1⟩]) 15 ∧
    (createOrder cxCatalog ⟨cxCustomer, [⟨some "B1", 1⟩], 15, none⟩ [] 0 "R" false false).orders
        = [] :=
  (createOrder_total_integrity cxCatalog ⟨cxCustomer, [⟨some "B1", 1⟩], 15, none⟩ [] 0 "R"
    false false (by simp) (by norm_num)
    (by
      intro i hi
      simp only [List.mem_singleton] at hi
      subst hi
      exact ⟨"B1", rfl, by simp, by norm_num⟩)
    (by
      intro i hi bid hbid
      simp only [List.mem_singleton] at hi
      subst hi
      injection hbid with hbid
      subst hbid
      exact ⟨cxBook, rfl⟩)).1
    (by
      have hst : serverTotal cxCatalog [⟨some "B1", 1⟩] = 10 := by
        simp [serverTotal, cxCatalog, cxBook]
      rw [hst]
      norm_num)

/-- Claim C5: a valid submission of `[{id: B1, qty: 2}]` with claimed total 25.98
against a catalog pricing B1 at 12.99 succeeds: the response carries an
order whose id has the generated shape (ORD-timestamp-random suffix),
whose status is pending, whose single line item snapshots the server's
current title, publisher and image with price 12.99 and quantity 2, and
whose total price is the sum of line quantity times line price; the order
is persisted. -/
theorem createOrder_roundtrip (catalog : String → Option CatBook) (db : List Order)
    (now : ℕ) (rand : String) (oF cF : Bool) (b : CatBook) (cust : ReqCustomer)
    (notes : Option String) (hb : catalog "B1" = some b) (hp : b.price = 1299 / 100) :
    ∃ o, (createOrder catalog (b1Request cust notes) db now rand oF cF).response
          = .created o ∧
      o.orderId = genOrderId now rand ∧
      o.status = "pending" ∧
      o.items = [⟨"B1", 2, 1299 / 100, b.title, b.publisher, b.image⟩] ∧
      o.totalPrice = linesTotal o.items ∧
      (createOrder catalog (b1Request cust notes) db now rand oF cF).orders = db ++ [o] := by
  have hok : processItems catalog (b1Request cust notes).items
      = .ok [⟨"B1", 2, b.price, b.title, b.publisher, b.image⟩] := by
    show processItems catalog [⟨some "B1", 2⟩] = _
    simp [processItems, hb]
  have hlt : linesTotal [(⟨"B1", 2, b.price, b.title, b.publisher, b.image⟩ : OrderLine)]
      = 2598 / 100 := by
    unfold linesTotal
    rw [hp]
    norm_num
  have hnot : ¬ 1 / 100 <
      |linesTotal [(⟨"B1", 2, b.price, b.title, b.publisher, b.image⟩ : OrderLine)]
        - (b1Request cust notes).totalPrice| := by
    rw [hlt]
    show ¬ 1 / 100 < |(2598 / 100 : ℚ) - 2598 / 100|
    norm_num
  have hcr := createOrder_created_eq catalog (b1Request cust notes) db now rand oF cF
    [⟨"B1", 2, b.price, b.title, b.publisher, b.image⟩] rfl
    (by show ¬ (2598 / 100 : ℚ) ≤ 0; norm_num) hok hnot
  refine ⟨builtOrder (b1Request cust notes)
    [⟨"B1", 2, b.price, b.title, b.publisher, b.image⟩] now rand, ?_, rfl, rfl, ?_, rfl, ?_⟩
  · rw [hcr]
  · show [(⟨"B1", 2, b.price, b.title, b.publisher, b.image⟩ : OrderLine)] = _
    rw [hp]
  · rw [hcr]

theorem createOrder_roundtrip_witness :
    ∃ o, (createOrder w5Catalog (b1Request cxCustomer none) [] 7 "RND" false false).response
          = .created o ∧
      o.orderId = genOrderId 7 "RND" ∧
      o.status = "pending" ∧
      o.items = [⟨"B1", 2, 1299 / 100, w5Book.title, w5Book.publisher, w5Book.image⟩] ∧
      o.totalPrice = linesTotal o.items ∧
      (createOrder w5Catalog (b1Request cxCustomer none) [] 7 "RND" false false).orders
          = [] ++ [o] :=
  createOrder_roundtrip w5Catalog [] 7 "RND" false false w5Book cxCustomer none rfl rfl

/-- Claim C10: when a request passes every check but the claimed total differs
from the server-calculated total (within the 0.01 tolerance), the created
and persisted order's totalPrice is the server-calculated total and not the
client-claimed value. -/
theorem createOrder_persists_server_total (catalog : String → Option CatBook)
    (req : OrderRequest) (db : List Order) (now : ℕ) (rand : String) (oF cF : Bool)
    (hne : req.items ≠ []) (htp : 0 < req.totalPrice)
    (hw : ∀ i ∈ req.items, i.wellformed)
    (hr : ∀ i ∈ req.items, resolvesIn catalog i)
    (hclose : |serverTotal catalog req.items - req.totalPrice| ≤ 1 / 100)
    (hdiff : serverTotal catalog req.items ≠ req.totalPrice) :
    ∃ o, (createOrder catalog req db now rand oF cF).response = .created o ∧
      o.totalPrice = serverTotal catalog req.items ∧
      o.totalPrice ≠ req.totalPrice ∧
      (createOrder catalog req db now rand oF cF).orders = db ++ [o] := by
  obtain ⟨lines, hok, htot⟩ := processItems_ok catalog req.items hw hr
  have hie : req.items.isEmpty = false := isEmpty_false_of_ne_nil hne
  have hnot : ¬ (1 / 100 < |linesTotal lines - req.totalPrice|) := by
    rw [htot]; exact not_lt.mpr hclose
  have hcr := createOrder_created_eq catalog req db now rand oF cF lines hie
    (not_le.mpr htp) hok hnot
  refine ⟨builtOrder req lines now rand, ?_, ?_, ?_, ?_⟩
  · rw [hcr]
  · show linesTotal lines = _
    exact htot
  · show linesTotal lines ≠ _
    rw [htot]; exact hdiff
  · rw [hcr]

/-- Witness for C10: server total 10, claimed total 10.01 — within
tolerance but different; the persisted total is 10. -/
theorem createOrder_persists_server_total_witness :
    ∃ o, (createOrder cxCatalog ⟨cxCustomer, [⟨some "B1", 1⟩], 1001 / 100, none⟩
            [] 0 "R" false false).response = .created o ∧
      o.totalPrice = serverTotal cxCatalog [⟨some "B1", 1⟩] ∧
      o.totalPrice ≠ 1001 / 100 ∧
      (createOrder cxCatalog ⟨cxCustomer, [⟨some "B1", 1⟩], 1001 / 100, none⟩
            [] 0 "R" false false).orders = [] ++ [o] := by
  have hst : serverTotal cxCatalog [⟨some "B1", 1⟩] = 10 := by
    simp [serverTotal, cxCatalog, cxBook]
  exact createOrder_persists_server_total cxCatalog
    ⟨cxCustomer, [⟨some "B1", 1⟩], 1001 / 100, none⟩ [] 0 "R" false false
    (by simp) (by norm_num)
    (by
      intro i hi
      simp only [List.mem_singleton] at hi
      subst hi
      exact ⟨"B1", rfl, by simp, by norm_num⟩)
    (by
      intro i hi bid hbid
      simp only [List.mem_singleton] at hi
      subst hi
      injection hbid with hbid
      subst hbid
      exact ⟨cxBook, rfl⟩)
    (by rw [hst, abs_le]; constructor <;> norm_num)
    (by rw [hst]; norm_num)

/-- Counterexample for claim C8: a request that succeeds (the order is created and
persisted) while the owner notification fails: the customer confirmation
is not sent, contradicting the claim that an owner-notification failure
cannot prevent the customer confirmation. -/
theorem owner_email_failure_blocks_customer :
    (createOrder cxCatalog c8Request [] 0 "R" true false).response.isCreated = true ∧
    (createOrder cxCatalog c8Request [] 0 "R" true false).customerEmailSent = false := by
  have hok : processItems cxCatalog c8Request.items
      = .ok [⟨"B1", 1, 10, "Maths 101", "Acme", "http://img"⟩] := by
    show processItems cxCatalog [⟨some "B1", 1⟩] = _
    simp [processItems, cxCatalog, cxBook]
  have hnot : ¬ 1 / 100 <
      |linesTotal [(⟨"B1", 1, 10, "Maths 101", "Acme", "http://img"⟩ : OrderLine)]
        - c8Request.totalPrice| := by
    show ¬ 1 / 100 < |linesTotal [(⟨"B1", 1, 10, "Maths 101", "Acme", "http://img"⟩ : OrderLine)]
      - (10 : ℚ)|
    unfold linesTotal
    norm_num
  have hcr := createOrder_created_eq cxCatalog c8Request [] 0 "R" true false
    [⟨"B1", 1, 10, "Maths 101", "Acme", "http://img"⟩] rfl
    (by show ¬ (10 : ℚ) ≤ 0; norm_num) hok hnot
  rw [hcr]
  exact ⟨rfl, rfl⟩

/-- Amended claim C8: email-send failures never change the response or the
persisted orders (an email failure neither fails nor rolls back the
order), but the two sends share one try/catch: the owner notification
goes out iff the order was created and its send does not fail, and the
customer confirmation goes out iff additionally the owner send did not
fail — an owner failure suppresses the customer confirmation. -/
theorem email_failures_never_affect_order (catalog : String → Option CatBook)
    (req : OrderRequest) (db : List Order) (now : ℕ) (rand : String) (oF cF : Bool) :
    ((createOrder catalog req db now rand oF cF).response
        = (createOrder catalog req db now rand false false).response) ∧
    ((createOrder catalog req db now rand oF cF).orders
        = (createOrder catalog req db now rand false false).orders) ∧
    ((createOrder catalog req db now rand oF cF).ownerEmailSent
        = ((createOrder catalog req db now rand oF cF).response.isCreated && !oF)) ∧
    ((createOrder catalog req db now rand oF cF).customerEmailSent
        = ((createOrder catalog req db now rand oF cF).response.isCreated && !oF && !cF)) := by
  by_cases h1 : req.items.isEmpty = true
  · simp [createOrder, h1, OrderResponse.isCreated]
  by_cases h2 : req.totalPrice ≤ 0
  · simp [createOrder, h1, h2, OrderResponse.isCreated]
  cases hpi : processItems catalog req.items with
  | error e =>
    have hecf := processItems_error_shape catalog req.items e hpi
    simp [createOrder, h1, h2, hpi, hecf]
  | ok lines =>
    by_cases h3 : (100 : ℚ)⁻¹ < |linesTotal lines - req.totalPrice|
    · simp [createOrder, h1, h2, hpi, h3, OrderResponse.isCreated]
    · simp [createOrder, h1, h2, hpi, h3, OrderResponse.isCreated]

/-! ### Phone validator lemmas and claims -/

theorem digitCount_cons_digit {c : Char} (t : List Char) (h : c.isDigit = true) :
    digitCount (c :: t) = 1 + digitCount t := by
  simp [digitCount, List.countP_cons, h]
  omega

theorem digitCount_cons_nondigit {c : Char} (t : List Char) (h : c.isDigit = false) :
    digitCount (c :: t) = digitCount t := by
  simp [digitCount, List.countP_cons, h]

theorem isSep_not_digit (c : Char) (h : isSep c = true) : c.isDigit = false := by
  simp only [isSep, Bool.or_eq_true, decide_eq_true_eq] at h
  rcases h with (h | h) | h
  · subst h; decide
  · subst h; decide
  · simp only [Char.isWhitespace, Bool.or_eq_true, decide_eq_true_eq] at h
    rcases h with ((h | h) | h) | h <;> (subst h; decide)

theorem tailOk_digitCount : ∀ (s : List Char) (k : ℕ), tailOk s k = true →
    7 ≤ digitCount s + k ∧ digitCount s + k ≤ 16
  | [], k, h => by simp [tailOk] at h
  | [c], k, h => by
    simp only [tailOk, Bool.and_eq_true, decide_eq_true_eq] at h
    obtain ⟨⟨hd, h6⟩, h15⟩ := h
    rw [digitCount_cons_digit [] hd]
    simp [digitCount]
    omega
  | c :: c2 :: rest, k, h => by
    simp only [tailOk, Bool.and_eq_true, Bool.or_eq_true, decide_eq_true_eq] at h
    obtain ⟨⟨hd, hk⟩, hor⟩ := h
    rcases hor with h1 | ⟨hsep, h2⟩
    · have ih := tailOk_digitCount (c2 :: rest) (k + 1) h1
      rw [digitCount_cons_digit (c2 :: rest) hd]
      omega
    · have hnd : c2.isDigit = false := isSep_not_digit c2 hsep
      have ih := tailOk_digitCount rest (k + 1) h2
      rw [digitCount_cons_digit (c2 :: rest) hd, digitCount_cons_nondigit rest hnd]
      omega

theorem mem_plusOpts {s u : List Char} (h : u ∈ plusOpts s) :
    digitCount u = digitCount s := by
  cases s with
  | nil =>
    simp [plusOpts] at h
    rw [h]
  | cons c rest =>
    by_cases hc : c = '+'
    · change u ∈ (if c = '+' then [c :: rest, rest] else [c :: rest]) at h
      rw [if_pos hc] at h
      simp [List.mem_cons] at h
      rcases h with h | h
      · rw [h]
      · subst hc
        rw [h, digitCount_cons_nondigit rest (by decide)]
    · change u ∈ (if c = '+' then [c :: rest, rest] else [c :: rest]) at h
      rw [if_neg hc] at h
      simp at h
      rw [h]

theorem mem_digitsOpt {s u : List Char} (h : u ∈ digitsOpt s) :
    digitCount u ≤ digitCount s ∧ digitCount s ≤ digitCount u + 3 := by
  cases s with
  | nil =>
    simp [digitsOpt] at h
    rw [h]
    omega
  | cons a r1 =>
    by_cases ha : a.isDigit = true
    · cases r1 with
      | nil =>
        simp [digitsOpt, ha] at h
        rcases h with h | h
        · rw [h]; omega
        · rw [h, digitCount_cons_digit [] ha]; omega
      | cons b r2 =>
        by_cases hb : b.isDigit = true
        · cases r2 with
          | nil =>
            simp [digitsOpt, ha, hb] at h
            rcases h with h | h | h
            · rw [h]; omega
            · rw [h, digitCount_cons_digit (b :: []) ha]; omega
            · rw [h, digitCount_cons_digit (b :: []) ha, digitCount_cons_digit [] hb]
              omega
          | cons c r3 =>
            by_cases hc : c.isDigit = true
            · simp [digitsOpt, ha, hb, hc] at h
              rcases h with h | h | h | h
              · rw [h]; omega
              · rw [h, digitCount_cons_digit (b :: c :: r3) ha]; omega
              · rw [h, digitCount_cons_digit (b :: c :: r3) ha,
                  digitCount_cons_digit (c :: r3) hb]
                omega
              · rw [h, digitCount_cons_digit (b :: c :: r3) ha,
                  digitCount_cons_digit (c :: r3) hb, digitCount_cons_digit r3 hc]
                omega
            · simp [digitsOpt, ha, hb, hc] at h
              rcases h with h | h | h
              · rw [h]; omega
              · rw [h, digitCount_cons_digit (b :: c :: r3) ha]; omega
              · rw [h, digitCount_cons_digit (b :: c :: r3) ha,
                  digitCount_cons_digit (c :: r3) hb]
                omega
        · simp [digitsOpt, ha, hb] at h
          rcases h with h | h
          · rw [h]; omega
          · rw [h, digitCount_cons_digit (b :: r2) ha]; omega
    · simp [digitsOpt, ha] at h
      rw [h]
      omega

theorem mem_optSep {s u : List Char} (h : u ∈ optSep s) :
    digitCount u = digitCount s := by
  cases s with
  | nil =>
    simp [optSep] at h
    rw [h]
  | cons c rest =>
    by_cases hc : isSep c = true
    · change u ∈ (if isSep c then [c :: rest, rest] else [c :: rest]) at h
      rw [if_pos hc] at h
      simp [List.mem_cons] at h
      rcases h with h | h
      · rw [h]
      · rw [h, digitCount_cons_nondigit rest (isSep_not_digit c hc)]
    · change u ∈ (if isSep c then [c :: rest, rest] else [c :: rest]) at h
      rw [if_neg hc] at h
      simp at h
      rw [h]

theorem area3_digitCount {t r : List Char} (h : area3 t = some r) :
    digitCount t = 3 + digitCount r := by
  cases t with
  | nil => simp [area3] at h
  | cons a t1 =>
    cases t1 with
    | nil => simp [area3] at h
    | cons b t2 =>
      cases t2 with
      | nil => simp [area3] at h
      | cons c r2 =>
        by_cases habc : (a.isDigit && b.isDigit && c.isDigit) = true
        · change (if a.isDigit && b.isDigit && c.isDigit then some r2 else none) = some r at h
          rw [if_pos habc] at h
          injection h with h
          subst h
          simp only [Bool.and_eq_true] at habc
          obtain ⟨⟨ha, hb2⟩, hc⟩ := habc
          rw [digitCount_cons_digit (b :: c :: r2) ha, digitCount_cons_digit (c :: r2) hb2,
            digitCount_cons_digit r2 hc]
          omega
        · change (if a.isDigit && b.isDigit && c.isDigit then some r2 else none) = some r at h
          rw [if_neg habc] at h
          exact absurd h (by simp)

theorem mem_areaCore {t u : List Char} (h : u ∈ areaCore t) :
    digitCount t = 3 + digitCount u := by
  unfold areaCore at h
  cases harea : area3 t with
  | none =>
    rw [harea] at h
    simp at h
  | some r =>
    rw [harea] at h
    simp only [List.mem_flatten, List.mem_map] at h
    obtain ⟨L, ⟨v, hv, hL⟩, hu⟩ := h
    subst hL
    have huv : digitCount u = digitCount v := mem_optSep hu
    have hvr : digitCount v = digitCount r := by
      cases r with
      | nil =>
        simp at hv
        rw [hv]
      | cons c rr =>
        change v ∈ (if c = ')' then [c :: rr, rr] else [c :: rr]) at hv
        by_cases hc : c = ')'
        · rw [if_pos hc] at hv
          simp [List.mem_cons] at hv
          rcases hv with hv | hv
          · rw [hv]
          · subst hc
            rw [hv, digitCount_cons_nondigit rr (by decide)]
        · rw [if_neg hc] at hv
          simp at hv
          rw [hv]
    rw [area3_digitCount harea, huv, hvr]

theorem mem_areaOpts {s u : List Char} (h : u ∈ areaOpts s) :
    digitCount s = digitCount u ∨ digitCount s = 3 + digitCount u := by
  have h2 : u ∈ [s] ∨ u ∈ areaCore s ∨
      u ∈ (match s with
           | c :: rest => if c = '(' then areaCore rest else []
           | [] => ([] : List (List Char))) := by
    unfold areaOpts at h
    rw [List.mem_append, List.mem_append] at h
    rcases h with (h | h) | h
    · exact Or.inl h
    · exact Or.inr (Or.inl h)
    · exact Or.inr (Or.inr h)
  rcases h2 with h2 | h2 | h2
  · simp at h2
    left
    rw [h2]
  · right
    exact mem_areaCore h2
  · cases s with
    | nil => simp at h2
    | cons c rest =>
      change u ∈ (if c = '(' then areaCore rest else []) at h2
      by_cases hc : c = '('
      · rw [if_pos hc] at h2
        right
        subst hc
        rw [digitCount_cons_nondigit rest (by decide)]
        exact mem_areaCore h2
      · rw [if_neg hc] at h2
        simp at h2

/-- Counterexample for claim C9: the phone pattern accepts a string of 17 digits,
so "at most 16 digit characters" fails (the country-code and area groups
can contribute up to 6 digits on top of the 16 of the tail). -/
theorem phone_regex_accepts_seventeen_digits :
    phoneMatch "12345678901234567".toList = true ∧
    digitCount "12345678901234567".toList = 17 := by
  constructor <;> decide

/-- Amended claim C9: the example phone "+1-555-123-4567" is accepted, "abc" is
rejected, and every string the pattern accepts contains between 7 and 22
digit characters (not at most 16: the optional country code and area
groups add up to 6 more digits). -/
theorem phone_validator_digit_bounds :
    phoneMatch "+1-555-123-4567".toList = true ∧
    phoneMatch "abc".toList = false ∧
    (∀ s : List Char, phoneMatch s = true → 7 ≤ digitCount s ∧ digitCount s ≤ 22) := by
  refine ⟨by decide, by decide, ?_⟩
  intro s h
  unfold phoneMatch at h
  rw [List.any_eq_true] at h
  obtain ⟨t, ht, htail⟩ := h
  rw [List.mem_flatten] at ht
  obtain ⟨L, hL, htL⟩ := ht
  rw [List.mem_map] at hL
  obtain ⟨u3, hu3, rfl⟩ := hL
  rw [List.mem_flatten] at hu3
  obtain ⟨L2, hL2, hu3L⟩ := hu3
  rw [List.mem_map] at hL2
  obtain ⟨u2, hu2, rfl⟩ := hL2
  rw [List.mem_flatten] at hu2
  obtain ⟨L1, hL1, hu2L⟩ := hu2
  rw [List.mem_map] at hL1
  obtain ⟨u1, hu1, rfl⟩ := hL1
  have e1 : digitCount u1 = digitCount s := mem_plusOpts hu1
  have e2 := mem_digitsOpt hu2L
  have e3 : digitCount u3 = digitCount u2 := mem_optSep hu3L
  have e4 := mem_areaOpts htL
  have e5 := tailOk_digitCount t 0 htail
  rcases e4 with e4 | e4 <;> omega

/-- Witness for C9's amended bounds at the accepted example phone. -/
theorem phone_validator_digit_bounds_witness :
    7 ≤ digitCount "+1-555-123-4567".toList ∧
    digitCount "+1-555-123-4567".toList ≤ 22 :=
  phone_validator_digit_bounds.2.2 "+1-555-123-4567".toList (by decide)

end Shop
